import Mathlib

/-!
Verification of the llmcmd client/daemon IPC core, shallowly embedded from the
Rust sources: `src/protocol.rs` (message types and length-prefixed framing),
`src/daemon/server.rs` (connection handler and daemon lifecycle),
`src/daemon/llm/mod.rs` (backend dispatch), `src/client/socket.rs` (client
channel) and `src/config.rs` (system-prompt construction).

The wire format is a 4-byte big-endian length prefix followed by a compact
serde_json payload.  Bytes are modelled as `Nat` values (< 256 on every path
the code produces), strings are serialized through UTF-8, and the derived
serde `Serialize`/`Deserialize` instances of the protocol types are modelled
as translations through a JSON syntax tree.  serde_json itself is an external
dependency of the crate; its compact writer and its reader are embedded here
directly (escaping rules, internal `type` tag, `skip_serializing_if` on
optional fields), restricted to the JSON forms the protocol types use:
objects, strings and `null`.
-/

set_option maxRecDepth 10000

deriving instance DecidableEq for Except

namespace Llmcmd

/-- JSON values, restricted to the forms the protocol types produce: the
derived encodings of `Message` and `Response` contain only objects and
strings, plus `null` (accepted when decoding optional fields). -/
inductive Json where
  | str (s : String)
  | obj (fields : List (String × Json))
  | null

/-- UTF-8 encoding of one Unicode scalar value, as byte values. -/
def utf8EncodeNat (n : Nat) : List Nat :=
  if n < 0x80 then [n]
  else if n < 0x800 then [0xC0 + n / 64, 0x80 + n % 64]
  else if n < 0x10000 then [0xE0 + n / 4096, 0x80 + n / 64 % 64, 0x80 + n % 64]
  else [0xF0 + n / 262144, 0x80 + n / 4096 % 64, 0x80 + n / 64 % 64, 0x80 + n % 64]

/-- UTF-8 encoding of one character. -/
def utf8EncodeChar (c : Char) : List Nat := utf8EncodeNat c.toNat

/-- UTF-8 encoding of a character sequence. -/
def utf8Bytes : List Char → List Nat
  | [] => []
  | c :: cs => utf8EncodeChar c ++ utf8Bytes cs

/-- Whether a byte is a UTF-8 continuation byte. -/
def isCont (b : Nat) : Bool := 0x80 ≤ b && b < 0xC0

/-- Consume one continuation byte, folding it into the accumulated scalar
value, and finish the character. -/
def utf8DecodeCont1 (n : Nat) : List Nat → Option (Char × List Nat)
  | b1 :: t => if isCont b1 then some (Char.ofNat (n * 64 + (b1 - 0x80)), t) else none
  | [] => none

/-- Consume one continuation byte, then one more. -/
def utf8DecodeCont2 (n : Nat) : List Nat → Option (Char × List Nat)
  | b1 :: t => if isCont b1 then utf8DecodeCont1 (n * 64 + (b1 - 0x80)) t else none
  | [] => none

/-- Consume one continuation byte, then two more. -/
def utf8DecodeCont3 (n : Nat) : List Nat → Option (Char × List Nat)
  | b1 :: t => if isCont b1 then utf8DecodeCont2 (n * 64 + (b1 - 0x80)) t else none
  | [] => none

/-- Decode one UTF-8 character from the front of a byte sequence. -/
def utf8Decode1 : List Nat → Option (Char × List Nat)
  | [] => none
  | b0 :: t =>
    if b0 < 0x80 then some (Char.ofNat b0, t)
    else if b0 < 0xC0 then none
    else if b0 < 0xE0 then utf8DecodeCont1 (b0 - 0xC0) t
    else if b0 < 0xF0 then utf8DecodeCont2 (b0 - 0xE0) t
    else utf8DecodeCont3 (b0 - 0xF0) t

/-- Decode a UTF-8 byte sequence, character by character.  The fuel bounds
the number of characters; each character consumes at least one byte, so the
byte count is always enough fuel. -/
def utf8DecodeGo : Nat → List Nat → Option (List Char)
  | 0, bs => if bs = [] then some [] else none
  | fuel + 1, bs =>
    if bs = [] then some []
    else
      match utf8Decode1 bs with
      | some (c, rest) => (utf8DecodeGo fuel rest).map (c :: ·)
      | none => none

/-- Decode a UTF-8 byte sequence back into characters. -/
def utf8DecodeList (bs : List Nat) : Option (List Char) := utf8DecodeGo bs.length bs

/-- One lowercase hexadecimal digit as a byte (serde_json's digit table). -/
def hexDigit (n : Nat) : Nat := if n < 10 then 0x30 + n else 0x57 + n

/-- Value of a hexadecimal digit byte. -/
def hexVal (b : Nat) : Option Nat :=
  if 0x30 ≤ b && b ≤ 0x39 then some (b - 0x30)
  else if 0x61 ≤ b && b ≤ 0x66 then some (b - 0x57)
  else if 0x41 ≤ b && b ≤ 0x46 then some (b - 0x37)
  else none

/-- serde_json's escaping of one character inside a JSON string literal:
quote and backslash get a two-byte escape, the five named control characters
get theirs, the remaining control characters (below 0x20) get a `\u00XX`
escape with lowercase hex digits, and every other character is written as its
raw UTF-8 bytes. -/
def escapeChar (c : Char) : List Nat :=
  if c.toNat = 0x22 then [0x5C, 0x22]
  else if c.toNat = 0x5C then [0x5C, 0x5C]
  else if c.toNat = 0x08 then [0x5C, 0x62]
  else if c.toNat = 0x09 then [0x5C, 0x74]
  else if c.toNat = 0x0A then [0x5C, 0x6E]
  else if c.toNat = 0x0C then [0x5C, 0x66]
  else if c.toNat = 0x0D then [0x5C, 0x72]
  else if c.toNat < 0x20 then
    [0x5C, 0x75, 0x30, 0x30, hexDigit (c.toNat / 16), hexDigit (c.toNat % 16)]
  else utf8EncodeChar c

/-- Escaped body of a JSON string literal. -/
def escapeList : List Char → List Nat
  | [] => []
  | c :: cs => escapeChar c ++ escapeList cs

/-- A JSON string literal: opening quote, escaped body, closing quote. -/
def serializeStr (s : String) : List Nat := 0x22 :: (escapeList s.data ++ [0x22])

mutual

/-- serde_json's compact serialization of a JSON value. -/
def serializeJson : Json → List Nat
  | .str s => serializeStr s
  | .null => [0x6E, 0x75, 0x6C, 0x6C]
  | .obj fs => 0x7B :: serializeFieldsBody fs

/-- Body of a compact JSON object after the opening brace: `"key":value`
pairs separated by commas, then the closing brace. -/
def serializeFieldsBody : List (String × Json) → List Nat
  | [] => [0x7D]
  | (k, v) :: more =>
    serializeStr k ++ (0x3A :: serializeJson v) ++
      (match more with
       | [] => [0x7D]
       | _ :: _ => 0x2C :: serializeFieldsBody more)

end

/-- Resolve one escape sequence after a backslash inside a JSON string
literal, returning the escaped byte and the unconsumed tail.  Only sub-0x80
`\uXXXX` escapes are resolved, which covers everything the writer produces
(it only emits `\u00XX`, for control characters). -/
def unescEscByte : List Nat → Option (Nat × List Nat)
  | [] => none
  | e :: r =>
    if e = 0x22 then some (0x22, r)
    else if e = 0x5C then some (0x5C, r)
    else if e = 0x62 then some (0x08, r)
    else if e = 0x74 then some (0x09, r)
    else if e = 0x6E then some (0x0A, r)
    else if e = 0x66 then some (0x0C, r)
    else if e = 0x72 then some (0x0D, r)
    else if e = 0x75 then
      match r with
      | h1 :: h2 :: h3 :: h4 :: r4 =>
        match hexVal h1, hexVal h2, hexVal h3, hexVal h4 with
        | some a, some v2, some v3, some v4 =>
          let n := a * 4096 + v2 * 256 + v3 * 16 + v4
          if n < 0x80 then some (n, r4) else none
        | _, _, _, _ => none
      | _ => none
    else none

/-- The scanning loop behind `unescapeScan`.  The fuel bounds the number of
iterations; each iteration consumes at least one byte, so the byte count is
always enough fuel. -/
def unescapeGo : Nat → List Nat → Option (List Nat × List Nat)
  | 0, _ => none
  | fuel + 1, bs =>
    match bs with
    | [] => none
    | b :: rest =>
      if b = 0x22 then some ([], rest)
      else if b = 0x5C then
        match unescEscByte rest with
        | some (n, r) => (unescapeGo fuel r).map (fun p => (n :: p.1, p.2))
        | none => none
      else (unescapeGo fuel rest).map (fun p => (b :: p.1, p.2))

/-- Scanner for a JSON string literal body (after the opening quote):
consume bytes up to the closing quote, resolving the escape sequences the
serializer emits, and return the raw UTF-8 content bytes together with the
unconsumed tail. -/
def unescapeScan (bs : List Nat) : Option (List Nat × List Nat) :=
  unescapeGo bs.length bs

/-- Parse a JSON string literal body into a string and the unconsumed tail. -/
def parseStrBody (bs : List Nat) : Option (String × List Nat) :=
  match unescapeScan bs with
  | some (raw, rest) =>
    match utf8DecodeList raw with
    | some cs => some (String.mk cs, rest)
    | none => none
  | none => none

mutual

/-- Parser for the JSON subset the protocol uses (strings, objects, `null`),
consuming a prefix of the byte list.  The `fuel` argument bounds the nesting
recursion; the framing layer supplies more fuel than any payload can use, so
it never runs out on real input. -/
def parseJson : Nat → List Nat → Option (Json × List Nat)
  | 0, _ => none
  | fuel + 1, bs =>
    match bs with
    | 0x22 :: rest =>
      match parseStrBody rest with
      | some (s, r) => some (.str s, r)
      | none => none
    | 0x6E :: 0x75 :: 0x6C :: 0x6C :: rest => some (.null, rest)
    | 0x7B :: rest =>
      match parseObjBody fuel rest with
      | some (fs, r) => some (.obj fs, r)
      | none => none
    | _ => none

/-- Parse a compact JSON object body after the opening brace. -/
def parseObjBody : Nat → List Nat → Option (List (String × Json) × List Nat)
  | 0, _ => none
  | fuel + 1, bs =>
    match bs with
    | 0x7D :: rest => some ([], rest)
    | 0x22 :: rest =>
      match parseStrBody rest with
      | some (k, r1) =>
        match r1 with
        | 0x3A :: r2 =>
          match parseJson fuel r2 with
          | some (v, r3) =>
            match r3 with
            | 0x2C :: r4 =>
              match parseObjBody fuel r4 with
              | some (fs, r5) => some ((k, v) :: fs, r5)
              | none => none
            | 0x7D :: r4 => some ([(k, v)], r4)
            | _ => none
          | none => none
        | _ => none
      | none => none
    | _ => none

end

/-! ## Protocol data types (`src/protocol.rs`) -/

/-- `Context` (protocol.rs 18-29): system context gathered by the client.
`cwd` is a `PathBuf` in the source; serde serializes a `PathBuf` as a JSON
string, so it is modelled as a string.  `distro` carries
`skip_serializing_if = "Option::is_none"`. -/
structure Context where
  cwd : String
  shell : String
  os : String
  distro : Option String
  deriving DecidableEq

/-- `Request` (protocol.rs 9-15): the query and its context.  These are the
only two fields the struct declares. -/
structure Request where
  query : String
  context : Context
  deriving DecidableEq

/-- `Response` (protocol.rs 32-40): both fields optional, both with
`skip_serializing_if = "Option::is_none"`. -/
structure Response where
  command : Option String
  error : Option String
  deriving DecidableEq

/-- `Response::success` (protocol.rs 44-49). -/
def Response.success (command : String) : Response :=
  { command := some command, error := none }

/-- `Response::error` (protocol.rs 52-57); named `failure` here because the
`error` field already owns that name in Lean. -/
def Response.failure (message : String) : Response :=
  { command := none, error := some message }

/-- `Message` (protocol.rs 75-84): the IPC message union, internally tagged
with `type`, variants renamed to snake case. -/
inductive Message where
  | query (r : Request)
  | status
  | shutdown
  deriving DecidableEq

/-! ## Derived serde encodings of the protocol types

serde's derived `Serialize` writes struct fields in declaration order and
skips `None` optionals marked `skip_serializing_if`; the internally tagged
enum writes the `type` tag first and then the variant's fields inline.
Derived `Deserialize` looks fields up by name, ignores unknown fields, and
reads a missing or `null` optional field as `None`. -/

/-- Encoding of `Context`. -/
def encodeContext (c : Context) : Json :=
  .obj ([("cwd", Json.str c.cwd), ("shell", Json.str c.shell), ("os", Json.str c.os)] ++
    (match c.distro with
     | some d => [("distro", Json.str d)]
     | none => []))

/-- Encoding of `Message` (internally tagged, tag values in snake case). -/
def encodeMessage : Message → Json
  | .query r =>
    .obj [("type", Json.str "query"), ("query", Json.str r.query),
          ("context", encodeContext r.context)]
  | .status => .obj [("type", Json.str "status")]
  | .shutdown => .obj [("type", Json.str "shutdown")]

/-- Encoding of `Response`: a `None` field is skipped entirely. -/
def encodeResponse (r : Response) : Json :=
  .obj ((match r.command with
         | some c => [("command", Json.str c)]
         | none => []) ++
        (match r.error with
         | some e => [("error", Json.str e)]
         | none => []))

/-- First field with the given key, as serde's field lookup. -/
def jsonLookup (k : String) : List (String × Json) → Option Json
  | [] => none
  | (k1, v) :: fs => if k1 = k then some v else jsonLookup k fs

/-- Decode an optional string field: absent or `null` is `None`, a string is
`Some`, anything else is a type error. -/
def decodeOptStrField (k : String) (fs : List (String × Json)) : Option (Option String) :=
  match jsonLookup k fs with
  | none => some none
  | some .null => some none
  | some (.str s) => some (some s)
  | some (.obj _) => none

/-- Decoding of `Context`: the three string fields are required, `distro` is
optional. -/
def decodeContext : Json → Option Context
  | .obj fs =>
    match jsonLookup "cwd" fs, jsonLookup "shell" fs, jsonLookup "os" fs with
    | some (.str cwd), some (.str shell), some (.str os) =>
      match decodeOptStrField "distro" fs with
      | some distro => some { cwd := cwd, shell := shell, os := os, distro := distro }
      | none => none
    | _, _, _ => none
  | _ => none

/-- Decoding of `Message`: dispatch on the `type` tag, then read the
variant's fields from the same object. -/
def decodeMessage : Json → Option Message
  | .obj fs =>
    match jsonLookup "type" fs with
    | some (.str t) =>
      if t = "query" then
        match jsonLookup "query" fs with
        | some (.str q) =>
          match jsonLookup "context" fs with
          | some cj =>
            match decodeContext cj with
            | some c => some (.query { query := q, context := c })
            | none => none
          | none => none
        | _ => none
      else if t = "status" then some .status
      else if t = "shutdown" then some .shutdown
      else none
    | _ => none
  | _ => none

/-! ## Framing (`protocol.rs`, `mod framing`, lines 88-126) -/

/-- How `read_message` can fail: the two `read_exact` calls hitting end of
stream, the declared length exceeding the 1 MB bound, or serde_json rejecting
the payload. -/
inductive ReadError where
  | truncated
  | tooLarge (declared : Nat)
  | decodeFailed
  deriving DecidableEq

/-- `u32::to_be_bytes`: four big-endian bytes of a 32-bit value. -/
def u32be (n : Nat) : List Nat :=
  [n / 0x1000000 % 256, n / 0x10000 % 256, n / 0x100 % 256, n % 256]

/-- `framing::write_message` for a `Message` (protocol.rs 93-104): serialize
to JSON, write the byte length as a big-endian `u32` (`json.len() as u32`
wraps at 2^32), then the payload, then flush. -/
def writeMessage (m : Message) : List Nat :=
  let payload := serializeJson (encodeMessage m)
  u32be (payload.length % 2 ^ 32) ++ payload

/-- `framing::write_message` for a `Response`. -/
def writeResponse (r : Response) : List Nat :=
  let payload := serializeJson (encodeResponse r)
  u32be (payload.length % 2 ^ 32) ++ payload

/-- `serde_json::from_slice` for `Message`: parse the whole payload (trailing
bytes are an error) and decode.  The fuel `payload.length + 1` strictly
exceeds the nesting any payload of that length can express, so the parser
never runs out (the real parser is not fuelled). -/
def fromSlice (payload : List Nat) : Option Message :=
  match parseJson (payload.length + 1) payload with
  | some (j, []) => decodeMessage j
  | _ => none

/-- The payload stage of `read_message` (protocol.rs 121-124): read exactly
`len` bytes, then deserialize them. -/
def readPayload (len : Nat) (rest : List Nat) : Except ReadError (Message × List Nat) :=
  if rest.length < len then .error .truncated
  else
    match fromSlice (rest.take len) with
    | some m => .ok (m, rest.drop len)
    | none => .error .decodeFailed

/-- `framing::read_message` (protocol.rs 107-125): read exactly 4 bytes,
interpret them as a big-endian length, reject anything above 1,000,000
before touching the payload, otherwise read and deserialize the payload.
Returns the decoded message and the unconsumed stream. -/
def readMessage : List Nat → Except ReadError (Message × List Nat)
  | b0 :: b1 :: b2 :: b3 :: rest =>
    let len := b0 * 0x1000000 + b1 * 0x10000 + b2 * 0x100 + b3
    if len > 1000000 then .error (.tooLarge len)
    else readPayload len rest
  | _ => .error .truncated

/-! ## Configuration and system prompt (`src/config.rs`) -/

/-- `Preferences` (config.rs 118-126). -/
structure Preferences where
  modern_tools : Bool
  verbose_flags : Bool
  deriving DecidableEq

/-- The slice of `Config` (config.rs 11-22) that the connection handler
reads: `build_system_prompt` only consults `preferences`. -/
structure Config where
  preferences : Preferences
  deriving DecidableEq

/-- `Config::build_system_prompt` (config.rs 336-378): deterministic string
construction from preferences and the request context. -/
def Config.build_system_prompt (cfg : Config) (context : Context) : String :=
  let modern_tools_note :=
    if cfg.preferences.modern_tools then
      "- Use modern tools when appropriate (ripgrep over grep, fd over find, bat over cat)"
    else
      "- Use standard POSIX tools (grep, find, cat)"
  let flags_note :=
    if cfg.preferences.verbose_flags then
      "- Prefer long flags for clarity (--recursive over -r) unless brevity is clearly preferred"
    else
      "- Use short flags for brevity (-r over --recursive)"
  let distro_info :=
    match context.distro with
    | some d => "\nDistro: " ++ d
    | none => ""
  "You are a shell command generator. Your ONLY output is the exact command to run.\n\n" ++
    "Rules:\n- Output ONLY the command, nothing else\n" ++
    "- No markdown, no backticks, no explanations\n" ++
    "- No preamble like \"Here\x27s the command:\"\n" ++
    "- If multiple commands needed, separate with && or ;\n" ++
    "- Make reasonable assumptions for ambiguous requests\n" ++
    modern_tools_note ++ "\n" ++ flags_note ++ "\n\nContext:\nOS: " ++ context.os ++
    distro_info ++ "\nShell: " ++ context.shell ++ "\nCWD: " ++ context.cwd

/-! ## Backend handle and connection handler (`src/daemon/server.rs`) -/

/-- The backend handle as the connection handler uses it (server.rs): `name`
and `model` are the pure accessors of `Backend` (llm/mod.rs 47-62);
`generate` is the network call abstracted as a function of the two arguments
`handle_client` passes it (server.rs line 135 calls
`backend.generate(&system_prompt, &request.query)` with no further
arguments); `healthCheck` is the startup probe's outcome. -/
structure BackendM where
  name : String
  model : String
  generate : String → String → Except String String
  healthCheck : Except String Unit

/-- What the handler decides to do after dispatching one decoded message. -/
inductive Dispatched where
  | respond (r : Response)
  | exitProcess
  deriving DecidableEq

/-- The dispatch match of `handle_client` (server.rs 127-165): a `Query`
builds the system prompt and maps the generate outcome onto
`Response::success`/`Response::error`; `Status` formats
`"Backend: {} ({})"` from the accessors; `Shutdown` exits the process. -/
def handleMessage (backend : BackendM) (config : Config) : Message → Dispatched
  | .query request =>
    let system_prompt := config.build_system_prompt request.context
    match backend.generate system_prompt request.query with
    | .ok command => .respond (Response.success command)
    | .error e => .respond (Response.failure e)
  | .status =>
    .respond (Response.success ("Backend: " ++ backend.name ++ " (" ++ backend.model ++ ")"))
  | .shutdown => .exitProcess

/-- The process-wide lifecycle files: socket file, PID file, startup-status
file (the last holds the line written to it, when any has been written). -/
structure FsState where
  socketFile : Bool
  pidFile : Bool
  statusFile : Option String
  deriving DecidableEq

/-- Outcome of one connection: the read failed and the connection was closed
with no response written; a response was written back; or the process exited
(`Shutdown`). -/
inductive ConnOutcome where
  | closed (e : ReadError)
  | replied (bytesOut : List Nat)
  | exited
  deriving DecidableEq

/-- `handle_client` (server.rs 117-172) over one connection's input bytes,
together with its effect on the lifecycle files: a decode failure closes the
connection without a response; `Query`/`Status` write one framed `Response`
back; `Shutdown` removes the socket and PID files (ignoring removal
failures) and exits without writing a response. -/
def handleClient (backend : BackendM) (config : Config) (fs : FsState) (input : List Nat) :
    ConnOutcome × FsState :=
  match readMessage input with
  | .error e => (.closed e, fs)
  | .ok (message, _) =>
    match handleMessage backend config message with
    | .respond r => (.replied (writeResponse r), fs)
    | .exitProcess => (.exited, { fs with socketFile := false, pidFile := false })

/-- The accept loop (server.rs 80-95), linearized: connections are handled
in sequence, and an exiting handler terminates the whole process, so the
connections behind it are never accepted.  Returns the final file state and
the outcomes of the connections that were actually handled. -/
def runConns (backend : BackendM) (config : Config) :
    List (List Nat) → FsState → FsState × List ConnOutcome
  | [], fs => (fs, [])
  | input :: more, fs =>
    match handleClient backend config fs input with
    | (.exited, fs1) => (fs1, [.exited])
    | (out, fs1) =>
      let rest := runConns backend config more fs1
      (rest.1, out :: rest.2)

/-- How `DaemonServer::run` can leave the startup phase: return with an
error before ever listening, or reach the accept loop. -/
inductive RunOutcome where
  | aborted (message : String)
  | listening
  deriving DecidableEq

/-- `DaemonServer::run` (server.rs 35-96) up to entering the accept loop:
remove any existing socket file, run the backend health check — on failure
the `?` operator returns the contexted error (nothing in the repository
writes the startup-status file) without binding a socket; on success bind
the socket and write the PID file. -/
def runDaemon (backend : BackendM) (fs : FsState) : RunOutcome × FsState :=
  let fs1 : FsState := { fs with socketFile := false }
  match backend.healthCheck with
  | .error _ =>
    (.aborted ("Backend health check failed for " ++ backend.name ++
      " (" ++ backend.model ++ ")"), fs1)
  | .ok _ => (.listening, { fs1 with socketFile := true, pidFile := true })

/-! ## Client channel (`src/client/socket.rs`) -/

/-- The response-handling tail of `send_query_to_stream` (socket.rs 62-69):
`command` is checked first and returned on success; otherwise a present
`error` fails with that message; otherwise a generic protocol-violation
error. -/
def processResponse (response : Response) : Except String String :=
  match response.command with
  | some command => .ok command
  | none =>
    match response.error with
    | some e => .error e
    | none => .error "Invalid response from daemon"

/-! ## Proof-side measures

`escapeItem`/`escapeItems` count how many iterations of the scanning loop
the escape encoding of a character sequence takes (escape sequences take one
iteration, plain characters one per UTF-8 byte); they exist only to state
exact-fuel lemmas about `unescapeGo`. -/

/-- Scanner iterations consumed by the escape encoding of one character. -/
def escapeItem (c : Char) : Nat :=
  if c.toNat = 0x22 then 1
  else if c.toNat = 0x5C then 1
  else if c.toNat = 0x08 then 1
  else if c.toNat = 0x09 then 1
  else if c.toNat = 0x0A then 1
  else if c.toNat = 0x0C then 1
  else if c.toNat = 0x0D then 1
  else if c.toNat < 0x20 then 1
  else (utf8EncodeChar c).length

/-- Scanner iterations consumed by the escape encoding of a character
sequence. -/
def escapeItems : List Char → Nat
  | [] => 0
  | c :: s => escapeItem c + escapeItems s


/-! ## Lemmas: UTF-8, escaping, parser and codec round trips -/

theorem char_toNat_lt (c : Char) : c.toNat < 1114112 := by
  rcases c.valid with h | ⟨h1, h2⟩
  · exact Nat.lt_trans h (by decide)
  · exact h2

theorem utf8Decode1_encodeChar (c : Char) (l : List Nat) :
    utf8Decode1 (utf8EncodeChar c ++ l) = some (c, l) := by
  have hv := char_toNat_lt c
  unfold utf8EncodeChar utf8EncodeNat
  by_cases h1 : c.toNat < 0x80
  · rw [if_pos h1]
    show utf8Decode1 (c.toNat :: l) = _
    rw [utf8Decode1, if_pos h1, Char.ofNat_toNat]
  · by_cases h2 : c.toNat < 0x800
    · rw [if_neg h1, if_pos h2]
      show utf8Decode1 ((0xC0 + c.toNat / 64) :: (0x80 + c.toNat % 64) :: l) = _
      rw [utf8Decode1, if_neg (by omega), if_neg (by omega), if_pos (by omega)]
      rw [utf8DecodeCont1, if_pos (by simp [isCont]; omega)]
      have harg : (0xC0 + c.toNat / 64 - 0xC0) * 64 + (0x80 + c.toNat % 64 - 0x80) = c.toNat := by
        omega
      rw [harg, Char.ofNat_toNat]
    · by_cases h3 : c.toNat < 0x10000
      · rw [if_neg h1, if_neg h2, if_pos h3]
        show utf8Decode1
          ((0xE0 + c.toNat / 4096) :: (0x80 + c.toNat / 64 % 64) :: (0x80 + c.toNat % 64) :: l) = _
        rw [utf8Decode1, if_neg (by omega), if_neg (by omega), if_neg (by omega),
          if_pos (by omega)]
        rw [utf8DecodeCont2, if_pos (by simp [isCont]; omega)]
        rw [utf8DecodeCont1, if_pos (by simp [isCont]; omega)]
        have harg : ((0xE0 + c.toNat / 4096 - 0xE0) * 64 + (0x80 + c.toNat / 64 % 64 - 0x80)) * 64 +
            (0x80 + c.toNat % 64 - 0x80) = c.toNat := by omega
        rw [harg, Char.ofNat_toNat]
      · rw [if_neg h1, if_neg h2, if_neg h3]
        show utf8Decode1
          ((0xF0 + c.toNat / 262144) :: (0x80 + c.toNat / 4096 % 64) ::
            (0x80 + c.toNat / 64 % 64) :: (0x80 + c.toNat % 64) :: l) = _
        rw [utf8Decode1, if_neg (by omega), if_neg (by omega), if_neg (by omega),
          if_neg (by omega)]
        rw [utf8DecodeCont3, if_pos (by simp [isCont]; omega)]
        rw [utf8DecodeCont2, if_pos (by simp [isCont]; omega)]
        rw [utf8DecodeCont1, if_pos (by simp [isCont]; omega)]
        have harg : (((0xF0 + c.toNat / 262144 - 0xF0) * 64 + (0x80 + c.toNat / 4096 % 64 - 0x80)) *
            64 + (0x80 + c.toNat / 64 % 64 - 0x80)) * 64 + (0x80 + c.toNat % 64 - 0x80) =
            c.toNat := by omega
        rw [harg, Char.ofNat_toNat]

theorem utf8EncodeNat_ne_nil (n : Nat) : utf8EncodeNat n ≠ [] := by
  unfold utf8EncodeNat
  repeat' split
  all_goals simp

theorem utf8DecodeGo_bytes (s : List Char) (fuel : Nat) (h : s.length ≤ fuel) :
    utf8DecodeGo fuel (utf8Bytes s) = some s := by
  induction s generalizing fuel with
  | nil =>
    cases fuel with
    | zero => rw [utf8Bytes, utf8DecodeGo, if_pos rfl]
    | succ f => rw [utf8Bytes, utf8DecodeGo, if_pos rfl]
  | cons c s ih =>
    cases fuel with
    | zero => exact absurd h (by simp)
    | succ f =>
      rw [utf8Bytes, utf8DecodeGo,
        if_neg (by simp [utf8EncodeChar, utf8EncodeNat_ne_nil]),
        utf8Decode1_encodeChar]
      dsimp only
      rw [ih f (by simpa using h)]
      rfl

theorem utf8EncodeChar_length_pos (c : Char) : 1 ≤ (utf8EncodeChar c).length := by
  rcases h : utf8EncodeChar c with _ | ⟨b, t⟩
  · exact absurd h (utf8EncodeNat_ne_nil c.toNat)
  · simp

theorem utf8Bytes_length (s : List Char) : s.length ≤ (utf8Bytes s).length := by
  induction s with
  | nil => simp [utf8Bytes]
  | cons c s ih =>
    rw [utf8Bytes]
    have := utf8EncodeChar_length_pos c
    simp only [List.length_append, List.length_cons]
    omega

theorem utf8DecodeList_bytes (s : List Char) : utf8DecodeList (utf8Bytes s) = some s :=
  utf8DecodeGo_bytes s (utf8Bytes s).length (utf8Bytes_length s)

theorem utf8EncodeNat_nonspecial (n : Nat) (h34 : n ≠ 0x22) (h5C : n ≠ 0x5C) :
    ∀ b ∈ utf8EncodeNat n, b ≠ 0x22 ∧ b ≠ 0x5C := by
  unfold utf8EncodeNat
  repeat' split
  all_goals intro b hb
  all_goals simp [List.mem_cons] at hb
  all_goals omega

theorem hexVal_hexDigit (n : Nat) (h : n < 16) : hexVal (hexDigit n) = some n := by
  unfold hexVal hexDigit
  by_cases h10 : n < 10
  · rw [if_pos h10, if_pos (by simp; omega)]
    congr 1
    omega
  · rw [if_neg h10, if_neg (by simp; omega), if_pos (by simp; omega)]
    congr 1
    omega

theorem unescapeGo_succ_other (g : Nat) (b : Nat) (X : List Nat)
    (h1 : b ≠ 0x22) (h2 : b ≠ 0x5C) :
    unescapeGo (g + 1) (b :: X) = (unescapeGo g X).map (fun p => (b :: p.1, p.2)) := by
  rw [unescapeGo]
  rw [if_neg h1, if_neg h2]

theorem unescapeGo_nonspecial (l : List Nat) (X : List Nat) (g : Nat)
    (h : ∀ b ∈ l, b ≠ 0x22 ∧ b ≠ 0x5C) :
    unescapeGo (l.length + g) (l ++ X) = (unescapeGo g X).map (fun p => (l ++ p.1, p.2)) := by
  induction l with
  | nil =>
    simp only [List.nil_append, List.length_nil, Nat.zero_add]
    rcases hs : unescapeGo g X with _ | ⟨o, r⟩ <;> simp
  | cons b l ih =>
    have hb := h b (by simp)
    have hlen : (b :: l).length + g = (l.length + g) + 1 := by simp; omega
    rw [hlen, List.cons_append, unescapeGo_succ_other _ b _ hb.1 hb.2,
      ih (fun x hx => h x (by simp [hx]))]
    rcases hs : unescapeGo g X with _ | ⟨o, r⟩ <;> simp

theorem unescEscByte_u (h1 h2 h3 h4 : Nat) (r : List Nat) :
    unescEscByte (0x75 :: h1 :: h2 :: h3 :: h4 :: r) =
      (match hexVal h1, hexVal h2, hexVal h3, hexVal h4 with
       | some a, some v2, some v3, some v4 =>
         if a * 4096 + v2 * 256 + v3 * 16 + v4 < 0x80 then
           some (a * 4096 + v2 * 256 + v3 * 16 + v4, r)
         else none
       | _, _, _, _ => none) := rfl

theorem unescapeGo_escapeChar (c : Char) (X : List Nat) (g : Nat) :
    unescapeGo (escapeItem c + g) (escapeChar c ++ X) =
      (unescapeGo g X).map (fun p => (utf8EncodeChar c ++ p.1, p.2)) := by
  have hv := char_toNat_lt c
  rw [escapeChar, escapeItem]
  by_cases h1 : c.toNat = 0x22
  · rw [if_pos h1, if_pos h1, Nat.add_comm 1 g]
    show unescapeGo (g + 1) (0x5C :: 0x22 :: X) = _
    rw [unescapeGo]
    norm_num [unescEscByte]
    rcases hs : unescapeGo g X with _ | ⟨o, r⟩ <;>
      simp [utf8EncodeChar, utf8EncodeNat, h1]
  · rw [if_neg h1, if_neg h1]
    by_cases h2 : c.toNat = 0x5C
    · rw [if_pos h2, if_pos h2, Nat.add_comm 1 g]
      show unescapeGo (g + 1) (0x5C :: 0x5C :: X) = _
      rw [unescapeGo]
      norm_num [unescEscByte]
      rcases hs : unescapeGo g X with _ | ⟨o, r⟩ <;>
        simp [utf8EncodeChar, utf8EncodeNat, h2]
    · rw [if_neg h2, if_neg h2]
      by_cases h3 : c.toNat = 0x08
      · rw [if_pos h3, if_pos h3, Nat.add_comm 1 g]
        show unescapeGo (g + 1) (0x5C :: 0x62 :: X) = _
        rw [unescapeGo]
        norm_num [unescEscByte]
        rcases hs : unescapeGo g X with _ | ⟨o, r⟩ <;>
          simp [utf8EncodeChar, utf8EncodeNat, h3]
      · rw [if_neg h3, if_neg h3]
        by_cases h4 : c.toNat = 0x09
        · rw [if_pos h4, if_pos h4, Nat.add_comm 1 g]
          show unescapeGo (g + 1) (0x5C :: 0x74 :: X) = _
          rw [unescapeGo]
          norm_num [unescEscByte]
          rcases hs : unescapeGo g X with _ | ⟨o, r⟩ <;>
            simp [utf8EncodeChar, utf8EncodeNat, h4]
        · rw [if_neg h4, if_neg h4]
          by_cases h5 : c.toNat = 0x0A
          · rw [if_pos h5, if_pos h5, Nat.add_comm 1 g]
            show unescapeGo (g + 1) (0x5C :: 0x6E :: X) = _
            rw [unescapeGo]
            norm_num [unescEscByte]
            rcases hs : unescapeGo g X with _ | ⟨o, r⟩ <;>
              simp [utf8EncodeChar, utf8EncodeNat, h5]
          · rw [if_neg h5, if_neg h5]
            by_cases h6 : c.toNat = 0x0C
            · rw [if_pos h6, if_pos h6, Nat.add_comm 1 g]
              show unescapeGo (g + 1) (0x5C :: 0x66 :: X) = _
              rw [unescapeGo]
              norm_num [unescEscByte]
              rcases hs : unescapeGo g X with _ | ⟨o, r⟩ <;>
                simp [utf8EncodeChar, utf8EncodeNat, h6]
            · rw [if_neg h6, if_neg h6]
              by_cases h7 : c.toNat = 0x0D
              · rw [if_pos h7, if_pos h7, Nat.add_comm 1 g]
                show unescapeGo (g + 1) (0x5C :: 0x72 :: X) = _
                rw [unescapeGo]
                norm_num [unescEscByte]
                rcases hs : unescapeGo g X with _ | ⟨o, r⟩ <;>
                  simp [utf8EncodeChar, utf8EncodeNat, h7]
              · rw [if_neg h7, if_neg h7]
                by_cases h8 : c.toNat < 0x20
                · rw [if_pos h8, if_pos h8, Nat.add_comm 1 g]
                  show unescapeGo (g + 1)
                    (0x5C :: 0x75 :: 0x30 :: 0x30 ::
                      hexDigit (c.toNat / 16) :: hexDigit (c.toNat % 16) :: X) = _
                  rw [unescapeGo]
                  norm_num
                  rw [unescEscByte_u, show hexVal 0x30 = some 0 from rfl,
                    hexVal_hexDigit _ (by omega), hexVal_hexDigit _ (by omega)]
                  dsimp only
                  rw [if_pos (by omega)]
                  have harg : 0 * 4096 + 0 * 256 + c.toNat / 16 * 16 + c.toNat % 16 = c.toNat := by
                    omega
                  rw [harg]
                  have henc : utf8EncodeChar c = [c.toNat] := by
                    rw [utf8EncodeChar, utf8EncodeNat, if_pos (show c.toNat < 0x80 by omega)]
                  rcases hs : unescapeGo g X with _ | ⟨o, r⟩ <;> simp [henc, hs]
                · rw [if_neg h8, if_neg h8]
                  rw [unescapeGo_nonspecial (utf8EncodeChar c) X g
                    (utf8EncodeNat_nonspecial c.toNat h1 h2)]

theorem unescapeGo_escapeList (s : List Char) (X : List Nat) (g : Nat) :
    unescapeGo (escapeItems s + (g + 1)) (escapeList s ++ (0x22 :: X)) =
      some (utf8Bytes s, X) := by
  induction s generalizing g with
  | nil =>
    show unescapeGo (0 + (g + 1)) (0x22 :: X) = _
    rw [Nat.zero_add, unescapeGo, if_pos rfl]
    rfl
  | cons c s ih =>
    show unescapeGo (escapeItem c + escapeItems s + (g + 1))
      ((escapeChar c ++ escapeList s) ++ (0x22 :: X)) = _
    rw [Nat.add_assoc, List.append_assoc, unescapeGo_escapeChar, ih g]
    simp [utf8Bytes]

theorem escapeItem_le (c : Char) : escapeItem c ≤ (escapeChar c).length := by
  rw [escapeItem, escapeChar]
  repeat' split
  all_goals simp

theorem escapeItems_le (s : List Char) : escapeItems s ≤ (escapeList s).length := by
  induction s with
  | nil => simp [escapeItems, escapeList]
  | cons c s ih =>
    rw [escapeItems, escapeList]
    have := escapeItem_le c
    simp only [List.length_append]
    omega

theorem unescapeScan_escapeList (s : List Char) (X : List Nat) :
    unescapeScan (escapeList s ++ (0x22 :: X)) = some (utf8Bytes s, X) := by
  rw [unescapeScan]
  have hle := escapeItems_le s
  have hlen : (escapeList s ++ (0x22 :: X)).length =
      escapeItems s + (((escapeList s).length - escapeItems s + X.length) + 1) := by
    simp only [List.length_append, List.length_cons]
    omega
  rw [hlen, unescapeGo_escapeList]

theorem parseStrBody_escape (s : String) (X : List Nat) :
    parseStrBody (escapeList s.data ++ (0x22 :: X)) = some (s, X) := by
  rw [parseStrBody, unescapeScan_escapeList]
  dsimp only
  rw [utf8DecodeList_bytes]

theorem parseJson_quote (fuel : Nat) (bs : List Nat) :
    parseJson (fuel + 1) (0x22 :: bs) =
      (match parseStrBody bs with
       | some (s, r) => some (.str s, r)
       | none => none) := rfl

theorem parseJson_null (fuel : Nat) (bs : List Nat) :
    parseJson (fuel + 1) (0x6E :: 0x75 :: 0x6C :: 0x6C :: bs) = some (.null, bs) := rfl

theorem parseJson_brace (fuel : Nat) (bs : List Nat) :
    parseJson (fuel + 1) (0x7B :: bs) =
      (match parseObjBody fuel bs with
       | some (fs, r) => some (.obj fs, r)
       | none => none) := rfl

theorem parseObjBody_close (fuel : Nat) (bs : List Nat) :
    parseObjBody (fuel + 1) (0x7D :: bs) = some ([], bs) := rfl

theorem parseObjBody_quote (fuel : Nat) (bs : List Nat) :
    parseObjBody (fuel + 1) (0x22 :: bs) =
      (match parseStrBody bs with
       | some (k, r1) =>
         match r1 with
         | 0x3A :: r2 =>
           match parseJson fuel r2 with
           | some (v, r3) =>
             match r3 with
             | 0x2C :: r4 =>
               match parseObjBody fuel r4 with
               | some (fs, r5) => some ((k, v) :: fs, r5)
               | none => none
             | 0x7D :: r4 => some ([(k, v)], r4)
             | _ => none
           | none => none
         | _ => none
       | none => none) := rfl

theorem parse_serializeJson (fuel : Nat) :
    (∀ (j : Json) (rest : List Nat), (serializeJson j).length < fuel →
      parseJson fuel (serializeJson j ++ rest) = some (j, rest)) ∧
    (∀ (fs : List (String × Json)) (rest : List Nat), (serializeFieldsBody fs).length < fuel →
      parseObjBody fuel (serializeFieldsBody fs ++ rest) = some (fs, rest)) := by
  induction fuel with
  | zero =>
    constructor
    · intro j rest h
      exact absurd h (Nat.not_lt_zero _)
    · intro fs rest h
      exact absurd h (Nat.not_lt_zero _)
  | succ fuel ih =>
    obtain ⟨ihJ, ihF⟩ := ih
    constructor
    · intro j rest h
      match j with
      | .str s =>
        rw [show serializeJson (.str s) ++ rest =
          0x22 :: (escapeList s.data ++ (0x22 :: rest)) by
            simp [serializeJson, serializeStr]]
        rw [parseJson_quote, parseStrBody_escape]
      | .null => exact parseJson_null fuel rest
      | .obj fs =>
        rw [show serializeJson (.obj fs) ++ rest =
          0x7B :: (serializeFieldsBody fs ++ rest) by simp [serializeJson]]
        rw [parseJson_brace, ihF fs rest (by
          have : (serializeJson (.obj fs)).length = 1 + (serializeFieldsBody fs).length := by
            simp [serializeJson]
            omega
          omega)]
    · intro fs rest h
      match fs with
      | [] => exact parseObjBody_close fuel rest
      | (k, v) :: more =>
        have hlenk : (serializeStr k).length = 2 + (escapeList k.data).length := by
          simp [serializeStr]
          omega
        cases more with
        | nil =>
          rw [show serializeFieldsBody [(k, v)] ++ rest =
            0x22 :: (escapeList k.data ++ (0x22 :: (0x3A ::
              (serializeJson v ++ (0x7D :: rest))))) by
              simp [serializeFieldsBody, serializeStr]]
          rw [parseObjBody_quote, parseStrBody_escape]
          dsimp only
          rw [ihJ v (0x7D :: rest) (by
            have : (serializeFieldsBody [(k, v)]).length =
                (serializeStr k).length + 1 + (serializeJson v).length + 1 := by
              simp [serializeFieldsBody]
              omega
            omega)]
        | cons m ms =>
          rw [show serializeFieldsBody ((k, v) :: m :: ms) ++ rest =
            0x22 :: (escapeList k.data ++ (0x22 :: (0x3A ::
              (serializeJson v ++ (0x2C :: (serializeFieldsBody (m :: ms) ++ rest)))))) by
              simp [serializeFieldsBody, serializeStr]]
          rw [parseObjBody_quote, parseStrBody_escape]
          dsimp only
          have hlen2 : (serializeFieldsBody ((k, v) :: m :: ms)).length =
              (serializeStr k).length + 1 + (serializeJson v).length + 1 +
                (serializeFieldsBody (m :: ms)).length := by
            simp [serializeFieldsBody]
            omega
          rw [ihJ v _ (by omega)]
          dsimp only
          rw [ihF (m :: ms) rest (by omega)]

theorem decodeContext_encodeContext (c : Context) :
    decodeContext (encodeContext c) = some c := by
  rcases c with ⟨cwd, shell, os, distro⟩
  cases distro with
  | none => simp [encodeContext, decodeContext, jsonLookup, decodeOptStrField]
  | some d => simp [encodeContext, decodeContext, jsonLookup, decodeOptStrField]

theorem decodeMessage_encodeMessage (m : Message) :
    decodeMessage (encodeMessage m) = some m := by
  match m with
  | .query r =>
    rcases r with ⟨q, c⟩
    simp [encodeMessage, decodeMessage, jsonLookup, decodeContext_encodeContext]
  | .status => simp [encodeMessage, decodeMessage, jsonLookup]
  | .shutdown => simp [encodeMessage, decodeMessage, jsonLookup]

theorem fromSlice_encode (m : Message) :
    fromSlice (serializeJson (encodeMessage m)) = some m := by
  rw [fromSlice]
  have h := (parse_serializeJson ((serializeJson (encodeMessage m)).length + 1)).1
    (encodeMessage m) [] (by omega)
  rw [List.append_nil] at h
  rw [h]
  exact decodeMessage_encodeMessage m

theorem readMessage_cons (b0 b1 b2 b3 : Nat) (rest : List Nat) :
    readMessage (b0 :: b1 :: b2 :: b3 :: rest) =
      (if b0 * 0x1000000 + b1 * 0x10000 + b2 * 0x100 + b3 > 1000000 then
        .error (.tooLarge (b0 * 0x1000000 + b1 * 0x10000 + b2 * 0x100 + b3))
      else readPayload (b0 * 0x1000000 + b1 * 0x10000 + b2 * 0x100 + b3) rest) := rfl

theorem readMessage_writeMessage (m : Message) (extra : List Nat)
    (h : (serializeJson (encodeMessage m)).length ≤ 1000000) :
    readMessage (writeMessage m ++ extra) = .ok (m, extra) := by
  rw [writeMessage]
  set payload := serializeJson (encodeMessage m) with hp
  set L := payload.length with hL
  have hmod : L % 2 ^ 32 = L := by omega
  rw [hmod, u32be]
  rw [show ([L / 0x1000000 % 256, L / 0x10000 % 256, L / 0x100 % 256, L % 256] ++ payload)
      ++ extra = L / 0x1000000 % 256 :: L / 0x10000 % 256 :: L / 0x100 % 256 :: L % 256 ::
      (payload ++ extra) by simp]
  rw [readMessage_cons]
  have hrec : L / 0x1000000 % 256 * 0x1000000 + L / 0x10000 % 256 * 0x10000 +
      L / 0x100 % 256 * 0x100 + L % 256 = L := by omega
  rw [hrec, if_neg (by omega)]
  rw [readPayload, if_neg (by simp [hL])]
  rw [show (payload ++ extra).take L = payload by
    rw [hL]
    exact List.take_left payload extra]
  rw [show (payload ++ extra).drop L = extra by
    rw [hL]
    exact List.drop_left payload extra]
  rw [hp, fromSlice_encode]

theorem escapeList_replicate_a (n : Nat) :
    (escapeList (List.replicate n 'a')).length = n := by
  induction n with
  | zero => simp [escapeList]
  | succ k ih =>
    rw [List.replicate_succ, escapeList]
    have : escapeChar 'a' = [0x61] := rfl
    simp [this, ih]

theorem serializeJson_obj3_length (k1 k2 k3 : String) (v1 v2 v3 : Json) :
    (serializeJson (.obj [(k1, v1), (k2, v2), (k3, v3)])).length =
      (serializeStr k1).length + (serializeJson v1).length +
      (serializeStr k2).length + (serializeJson v2).length +
      (serializeStr k3).length + (serializeJson v3).length + 7 := by
  show (0x7B :: (serializeStr k1 ++ (0x3A :: serializeJson v1) ++
    (0x2C :: (serializeStr k2 ++ (0x3A :: serializeJson v2) ++
      (0x2C :: (serializeStr k3 ++ (0x3A :: serializeJson v3) ++ [0x7D])))))).length = _
  simp only [List.length_cons, List.length_append, List.length_nil]
  omega

theorem big_payload_length :
    (serializeJson (encodeMessage (Message.query
      ⟨String.mk (List.replicate 1000001 'a'), ⟨"/", "sh", "linux", none⟩⟩))).length =
      1000001 + 75 := by
  rw [show encodeMessage (Message.query
      ⟨String.mk (List.replicate 1000001 'a'), ⟨"/", "sh", "linux", none⟩⟩) =
    Json.obj [("type", Json.str "query"),
      ("query", Json.str (String.mk (List.replicate 1000001 'a'))),
      ("context", encodeContext ⟨"/", "sh", "linux", none⟩)] from rfl]
  rw [serializeJson_obj3_length]
  have h1 : (serializeStr "type").length = 6 := by decide
  have h2 : (serializeJson (Json.str "query")).length = 7 := by decide
  have h3 : (serializeStr "query").length = 7 := by decide
  have h4 : (serializeJson (Json.str (String.mk (List.replicate 1000001 'a')))).length =
      1000001 + 2 := by
    rw [show serializeJson (Json.str (String.mk (List.replicate 1000001 'a'))) =
      0x22 :: (escapeList (List.replicate 1000001 'a') ++ [0x22]) from rfl]
    rw [List.length_cons, List.length_append, escapeList_replicate_a]
    rfl
  have h5 : (serializeStr "context").length = 9 := by decide
  have h6 : (serializeJson (encodeContext ⟨"/", "sh", "linux", none⟩)).length = 37 := by decide
  rw [h1, h2, h3, h4, h5, h6]


/-! ## The claims -/

theorem handleMessage_query (backend : BackendM) (config : Config) (req : Request) :
    handleMessage backend config (.query req) =
      (match backend.generate (config.build_system_prompt req.context) req.query with
       | .ok c => .respond (Response.success c)
       | .error e => .respond (Response.failure e)) := rfl

/-- C1 (amended): for every `Message` variant (`Query` with any `Context`,
distro present or absent, `Status`, `Shutdown`) whose serialized payload is
at most 1,000,000 bytes — the codec's own size bound — writing the message
with the framing codec's `write_message` and reading it back with
`read_message` reproduces the original message field-for-field and leaves
trailing stream bytes unconsumed; in particular a payload with no `distro`
field decodes to an absent value, not an error.  The unamended claim
quantifies over all messages and fails on payloads above the bound (see the
counterexample). -/
theorem framing_write_read_roundtrip (m : Message) (extra : List Nat)
    (h : (serializeJson (encodeMessage m)).length ≤ 1000000) :
    readMessage (writeMessage m ++ extra) = .ok (m, extra) :=
  readMessage_writeMessage m extra h

theorem framing_write_read_roundtrip_witness :
    readMessage (writeMessage (Message.query
      ⟨"list files", ⟨"/tmp", "/bin/zsh", "Linux", none⟩⟩) ++ []) =
      .ok (Message.query ⟨"list files", ⟨"/tmp", "/bin/zsh", "Linux", none⟩⟩, []) :=
  framing_write_read_roundtrip _ [] (by decide)

/-- C1 counterexample to the claim as stated: a `Query` whose query string
is 1,000,001 characters long writes fine, but reading it back fails with the
oversized-message error instead of reproducing the message. -/
theorem framing_roundtrip_counterexample :
    readMessage (writeMessage (Message.query
      ⟨String.mk (List.replicate 1000001 'a'), ⟨"/", "sh", "linux", none⟩⟩)) ≠
      .ok (Message.query ⟨String.mk (List.replicate 1000001 'a'),
        ⟨"/", "sh", "linux", none⟩⟩, []) := by
  have hw : writeMessage (Message.query
      ⟨String.mk (List.replicate 1000001 'a'), ⟨"/", "sh", "linux", none⟩⟩) =
      u32be ((serializeJson (encodeMessage (Message.query
        ⟨String.mk (List.replicate 1000001 'a'), ⟨"/", "sh", "linux", none⟩⟩))).length % 2 ^ 32) ++
      serializeJson (encodeMessage (Message.query
        ⟨String.mk (List.replicate 1000001 'a'), ⟨"/", "sh", "linux", none⟩⟩)) := rfl
  rw [hw, big_payload_length]
  rw [show u32be ((1000001 + 75) % 2 ^ 32) = [0x00, 0x0F, 0x42, 0x8C] from by decide]
  rw [show ([0x00, 0x0F, 0x42, 0x8C] : List Nat) ++ serializeJson (encodeMessage (Message.query
        ⟨String.mk (List.replicate 1000001 'a'), ⟨"/", "sh", "linux", none⟩⟩)) =
      0x00 :: 0x0F :: 0x42 :: 0x8C :: serializeJson (encodeMessage (Message.query
        ⟨String.mk (List.replicate 1000001 'a'), ⟨"/", "sh", "linux", none⟩⟩)) from rfl]
  rw [readMessage_cons, if_pos (by norm_num)]
  exact fun h => Except.noConfusion h

/-- C2: for every input stream whose 4-byte big-endian length prefix
decodes to a value strictly greater than 1,000,000, `read_message` fails
with the oversized-message error without consuming any payload bytes (the
result is the same for every payload `rest`, including none at all); for
every declared length of at most 1,000,000 control proceeds to the
payload-reading stage on exactly that length. -/
theorem read_message_oversized (b0 b1 b2 b3 : Nat) (rest : List Nat)
    (_hb0 : b0 < 256) (_hb1 : b1 < 256) (_hb2 : b2 < 256) (_hb3 : b3 < 256) :
    (b0 * 0x1000000 + b1 * 0x10000 + b2 * 0x100 + b3 > 1000000 →
      readMessage (b0 :: b1 :: b2 :: b3 :: rest) =
        .error (.tooLarge (b0 * 0x1000000 + b1 * 0x10000 + b2 * 0x100 + b3))) ∧
    (b0 * 0x1000000 + b1 * 0x10000 + b2 * 0x100 + b3 ≤ 1000000 →
      readMessage (b0 :: b1 :: b2 :: b3 :: rest) =
        readPayload (b0 * 0x1000000 + b1 * 0x10000 + b2 * 0x100 + b3) rest) := by
  constructor
  · intro h
    rw [readMessage_cons, if_pos h]
  · intro h
    rw [readMessage_cons, if_neg (by omega)]

theorem read_message_oversized_witness :
    readMessage (0 :: 16 :: 0 :: 1 :: [7, 7, 7]) = .error (.tooLarge 1048577) ∧
    readMessage (0 :: 0 :: 0 :: 2 :: [7, 7, 7]) = readPayload 2 [7, 7, 7] :=
  ⟨(read_message_oversized 0 16 0 1 [7, 7, 7]
      (by decide) (by decide) (by decide) (by decide)).1 (by decide),
   (read_message_oversized 0 0 0 2 [7, 7, 7]
      (by decide) (by decide) (by decide) (by decide)).2 (by decide)⟩

/-- C3: for every connection carrying a `Query`, if the backend's
`generate` succeeds with command `c` the handler writes
`Response{command: Some(c)}` back on the same connection, and if it fails
with cause `e` it writes `Response{error: Some(e)}` back — in both cases the
outcome is a written reply, never a closed connection or a daemon exit, and
the lifecycle files are untouched. -/
theorem handle_client_query (backend : BackendM) (config : Config) (fs : FsState)
    (input : List Nat) (req : Request) (tail : List Nat)
    (hread : readMessage input = .ok (.query req, tail)) :
    (∀ c, backend.generate (config.build_system_prompt req.context) req.query = .ok c →
      handleClient backend config fs input =
        (.replied (writeResponse (Response.success c)), fs)) ∧
    (∀ e, backend.generate (config.build_system_prompt req.context) req.query = .error e →
      handleClient backend config fs input =
        (.replied (writeResponse (Response.failure e)), fs)) := by
  constructor
  · intro c hc
    rw [handleClient, hread]
    dsimp only
    rw [handleMessage_query, hc]
  · intro e he
    rw [handleClient, hread]
    dsimp only
    rw [handleMessage_query, he]

theorem handle_client_query_witness :
    handleClient ⟨"ollama", "m", fun _ _ => .ok "ls -la", .ok ()⟩ ⟨⟨true, true⟩⟩
      ⟨true, true, none⟩
      (writeMessage (.query ⟨"list files", ⟨"/tmp", "/bin/zsh", "Linux", some "Ubuntu"⟩⟩)) =
      (.replied (writeResponse (Response.success "ls -la")), ⟨true, true, none⟩) :=
  (handle_client_query ⟨"ollama", "m", fun _ _ => .ok "ls -la", .ok ()⟩ ⟨⟨true, true⟩⟩
    ⟨true, true, none⟩ _ ⟨"list files", ⟨"/tmp", "/bin/zsh", "Linux", some "Ubuntu"⟩⟩ []
    (by decide)).1 "ls -la" rfl

/-- C4 (daemon behaviour at the failing input): when the backend's health
check fails, `DaemonServer::run` returns the contexted error before binding
— afterwards no socket file exists and the PID file is untouched — but the
startup-status file is also untouched: contrary to the claim (and to what
`main.rs`'s `daemon start` polls for), no `ERROR:` line is ever written to
it, because `run` only propagates the error and `Config::startup_status_path`
is not even defined in `config.rs`. -/
theorem run_daemon_health_failure (name model : String)
    (gen : String → String → Except String String) (e : String) (fs : FsState) :
    runDaemon ⟨name, model, gen, .error e⟩ fs =
      (.aborted ("Backend health check failed for " ++ name ++ " (" ++ model ++ ")"),
       { socketFile := false, pidFile := fs.pidFile, statusFile := fs.statusFile }) := rfl

/-- C5 (wire evidence for the dropped overrides): the serialized form of
every `Query` message has no `model` and no `temperature` field, because
`protocol.rs`'s `Request` declares neither — even though
`client/socket.rs` tries to construct them and `Backend::generate`
(llm/mod.rs) declares override parameters, so no override can ever reach the
backend through the daemon. -/
theorem query_wire_has_no_overrides (r : Request) (fs : List (String × Json))
    (h : encodeMessage (.query r) = .obj fs) :
    jsonLookup "model" fs = none ∧ jsonLookup "temperature" fs = none := by
  rw [show encodeMessage (.query r) = Json.obj [("type", Json.str "query"),
    ("query", Json.str r.query), ("context", encodeContext r.context)] from rfl] at h
  simp only [Json.obj.injEq] at h
  subst h
  constructor <;> simp [jsonLookup]

theorem query_wire_has_no_overrides_witness :
    jsonLookup "model" [("type", Json.str "query"), ("query", Json.str "list files"),
      ("context", encodeContext ⟨"/e", "zsh", "mac", none⟩)] = none ∧
    jsonLookup "temperature" [("type", Json.str "query"), ("query", Json.str "list files"),
      ("context", encodeContext ⟨"/e", "zsh", "mac", none⟩)] = none :=
  query_wire_has_no_overrides ⟨"list files", ⟨"/e", "zsh", "mac", none⟩⟩ _ rfl

/-- C6: every `Response` the connection handler produces — `Query` success,
`Query` failure, `Status` — has exactly one of `command`/`error` populated,
never both and never neither, and the `Status` case carries its status line
in `command`. -/
theorem response_exactly_one (backend : BackendM) (config : Config) :
    (∀ m : Message, match handleMessage backend config m with
      | .respond r => (r.command ≠ none ∧ r.error = none) ∨ (r.command = none ∧ r.error ≠ none)
      | .exitProcess => True) ∧
    (∃ s, handleMessage backend config .status = .respond (Response.success s)) := by
  constructor
  · intro m
    match m with
    | .query req =>
      rw [handleMessage_query]
      cases hg : backend.generate (config.build_system_prompt req.context) req.query with
      | ok c => simp [Response.success]
      | error e => simp [Response.failure]
    | .status => simp [handleMessage, Response.success]
    | .shutdown => simp [handleMessage]
  · exact ⟨_, rfl⟩

/-- C7 counterexample to the claim as stated: for the ollama backend the
status line is `"Backend: ollama (qwen2.5-coder:7b)"`, not the claimed
`"ollama (qwen2.5-coder:7b)"`. -/
theorem status_line_counterexample :
    handleMessage ⟨"ollama", "qwen2.5-coder:7b", fun _ _ => .ok "", .ok ()⟩ ⟨⟨true, true⟩⟩
      .status = .respond (Response.success "Backend: ollama (qwen2.5-coder:7b)") ∧
    "Backend: ollama (qwen2.5-coder:7b)" ≠ "ollama (qwen2.5-coder:7b)" :=
  ⟨rfl, by decide⟩

/-- C7 (amended): for every `Status` message the handler returns
`Response{command}` whose string is exactly `"Backend: <name> (<model>)"`
for the configured backend, and the result is independent of the backend's
`generate` and `health_check` (replacing both changes nothing), so neither
is called. -/
theorem status_response (name model : String)
    (g1 g2 : String → String → Except String String)
    (hc1 hc2 : Except String Unit) (config : Config) :
    handleMessage ⟨name, model, g1, hc1⟩ config .status =
      .respond (Response.success ("Backend: " ++ name ++ " (" ++ model ++ ")")) ∧
    handleMessage ⟨name, model, g1, hc1⟩ config .status =
      handleMessage ⟨name, model, g2, hc2⟩ config .status :=
  ⟨rfl, rfl⟩

/-- C8: the client's send path returns success with the command string when
`command` is present (and `error` absent), fails with the carried message
when `error` is present (and `command` absent), and fails with the generic
protocol-violation error when neither field is present. -/
theorem client_response_mapping (c e : String) :
    processResponse { command := some c, error := none } = .ok c ∧
    processResponse { command := none, error := some e } = .error e ∧
    processResponse { command := none, error := none } =
      .error "Invalid response from daemon" :=
  ⟨rfl, rfl, rfl⟩

/-- C9: a `Shutdown` message makes the handler remove the socket file and
the PID file and exit the process; afterwards neither file exists, and the
connections queued behind it are never accepted (the run produces only the
exit outcome, whatever `more` holds). -/
theorem shutdown_effect (backend : BackendM) (config : Config) (fs : FsState)
    (input : List Nat) (tail : List Nat)
    (hread : readMessage input = .ok (.shutdown, tail)) (more : List (List Nat)) :
    handleClient backend config fs input =
      (.exited, { socketFile := false, pidFile := false, statusFile := fs.statusFile }) ∧
    runConns backend config (input :: more) fs =
      ({ socketFile := false, pidFile := false, statusFile := fs.statusFile }, [.exited]) := by
  have hc : handleClient backend config fs input =
      (.exited, { socketFile := false, pidFile := false, statusFile := fs.statusFile }) := by
    rw [handleClient, hread]
    rfl
  refine ⟨hc, ?_⟩
  rw [runConns, hc]

theorem shutdown_effect_witness :
    handleClient ⟨"ollama", "m", fun _ _ => .ok "x", .ok ()⟩ ⟨⟨true, true⟩⟩
      ⟨true, true, none⟩ (writeMessage .shutdown) =
      (.exited, ⟨false, false, none⟩) ∧
    runConns ⟨"ollama", "m", fun _ _ => .ok "x", .ok ()⟩ ⟨⟨true, true⟩⟩
      [writeMessage .shutdown, writeMessage .status] ⟨true, true, none⟩ =
      (⟨false, false, none⟩, [.exited]) :=
  shutdown_effect ⟨"ollama", "m", fun _ _ => .ok "x", .ok ()⟩ ⟨⟨true, true⟩⟩
    ⟨true, true, none⟩ (writeMessage .shutdown) [] (by decide) [writeMessage .status]

/-- C10: for every received `Response` in which both `command` and `error`
are populated, the client's send path returns success with the command
string and silently discards the error: `command` is checked first and the
exactly-one rule is not enforced on the receiving side. -/
theorem client_both_fields_prefers_command (c e : String) :
    processResponse { command := some c, error := some e } = .ok c := rfl

end Llmcmd
